import Mathlib

/-!
Shallow embedding of the energygrid-aggregator core (JavaScript) in Lean 4.

Embedded modules:
* `src/lib/batchProcessor.js` — serial-number generation and batch planning
  (`generateSerialNumbers`, `createBatches`, `prepareBatches`);
* the rate limiter (`RateLimiter.execute` / `processQueue` / `clear`) — both a
  timing model (recorded start times) and a queue-transition model
  (FIFO settlement, `clear`);
* the API client (`fetchDeviceData`) — retry/backoff state machine over an
  abstract response sequence;
* `src/services/aggregator.js` (`aggregateDeviceData`) — the orchestration
  loop, accumulating device records, batch errors and progress events.

Machine integers are modelled as `Nat`/`Int` (JS numbers stay far below 2^53
here, so no overflow modelling is needed); wall-clock instants are `Nat`
milliseconds; fallible / possibly non-terminating code returns `Option`.
-/

/-- JS `s.padStart(targetLength, c)`: prepend copies of `c` until the string
has length `targetLength`; a string already at least that long is returned
unchanged (never truncated). -/
def padStart (s : String) (targetLength : Nat) (c : Char) : String :=
  String.mk (List.replicate (targetLength - s.length) c) ++ s

/-- One device identifier, from `generateSerialNumbers`' loop body:
`` `SN-${i.toString().padStart(3, '0')}` ``.  The pad target is the literal
`3` from the source. -/
def serialNumber (i : Nat) : String :=
  "SN-" ++ padStart (toString i) 3 '0'

/-- `generateSerialNumbers(count)` from `src/lib/batchProcessor.js`: pushes
`serialNumber i` for `i = 0 .. count-1`. -/
def generateSerialNumbers (count : Nat) : List String :=
  (List.range count).map serialNumber

/-- `createBatches(items, batchSize)` from `src/lib/batchProcessor.js`:
`for (let i = 0; i < items.length; i += batchSize) batches.push(items.slice(i, i + batchSize))`.
The JS loop need not terminate (e.g. `batchSize = 0` keeps `i` at `0`), so the
embedding is fuel-indexed: `none` means the loop did not finish within `fuel`
iterations; `some` is the accumulated batch list.  `items.slice(i, i + batchSize)`
is `(items.drop i).take batchSize`. -/
def createBatchesFuel (fuel : Nat) (items : List String) (batchSize i : Nat) :
    Option (List (List String)) :=
  match fuel with
  | 0 => none
  | fuel + 1 =>
    if i < items.length then
      (createBatchesFuel fuel items batchSize (i + batchSize)).map
        (fun rest => (items.drop i).take batchSize :: rest)
    else
      some []

/-- `createBatches(items, batchSize)`: run the loop with enough fuel for any
terminating execution (for `batchSize ≥ 1` the loop makes at most
`items.length + 1` guard checks). -/
def createBatches (items : List String) (batchSize : Nat) :
    Option (List (List String)) :=
  createBatchesFuel (items.length + 1) items batchSize 0

/-- The record returned by `prepareBatches` in `src/lib/batchProcessor.js`. -/
structure BatchInfo where
  serialNumbers : List String
  batches : List (List String)
  totalDevices : Nat
  batchSize : Nat
  totalBatches : Nat
deriving Repr

/-- `prepareBatches(totalDevices, batchSize)` from `src/lib/batchProcessor.js`:
generate the serial numbers, split them into batches, and package the counts.
`none` propagates non-termination of `createBatches`. -/
def prepareBatches (totalDevices batchSize : Nat) : Option BatchInfo :=
  let serialNumbers := generateSerialNumbers totalDevices
  (createBatches serialNumbers batchSize).map fun batches =>
    { serialNumbers := serialNumbers
      batches := batches
      totalDevices := totalDevices
      batchSize := batchSize
      totalBatches := batches.length }

/-- Mathematical left-to-right chunking of a list; proved below to agree with
the terminating executions of `createBatches` when `batchSize ≥ 1`. -/
def chunkList (b : Nat) : List α → List (List α)
  | [] => []
  | x :: xs => ((x :: xs).take b) :: chunkList b (xs.drop (b - 1))
termination_by l => l.length
decreasing_by simp [List.length_drop]; omega

theorem chunkList_nil (b : Nat) : chunkList b ([] : List α) = [] := by
  simp [chunkList]

theorem chunkList_cons (b : Nat) (x : α) (xs : List α) :
    chunkList b (x :: xs) = ((x :: xs).take b) :: chunkList b (xs.drop (b - 1)) := by
  rw [chunkList]

/-- For a positive chunk size, chunking a nonempty list takes `b` elements and
recurses on the rest. -/
theorem chunkList_eq_of_pos (b : Nat) (hb : 1 ≤ b) (l : List α) (hl : l ≠ []) :
    chunkList b l = l.take b :: chunkList b (l.drop b) := by
  match l, hl with
  | x :: xs, _ =>
    rw [chunkList_cons]
    have : (x :: xs).drop b = xs.drop (b - 1) := by
      match b, hb with
      | b + 1, _ => simp
    rw [this]

/-- Chunking an empty list gives no chunks; a nonempty list gives at least one. -/
theorem chunkList_eq_nil_iff (b : Nat) (l : List α) :
    chunkList b l = [] ↔ l = [] := by
  cases l <;> simp [chunkList_nil, chunkList_cons]

/-- Flattening a positive-size chunking recovers the original list. -/
theorem chunkList_flatten (b : Nat) (hb : 1 ≤ b) (l : List α) :
    (chunkList b l).flatten = l := by
  induction l using chunkList.induct b with
  | case1 => simp [chunkList_nil]
  | case2 x xs ih =>
    rw [chunkList_cons, List.flatten_cons, ih]
    have hdrop : xs.drop (b - 1) = (x :: xs).drop b := by
      match b, hb with
      | b + 1, _ => simp
    rw [hdrop, List.take_append_drop]

/-- Every chunk has at most `b` elements. -/
theorem chunkList_length_le (b : Nat) (l : List α) :
    ∀ c ∈ chunkList b l, c.length ≤ b := by
  induction l using chunkList.induct b with
  | case1 => simp [chunkList_nil]
  | case2 x xs ih =>
    rw [chunkList_cons]
    intro c hc
    rcases List.mem_cons.mp hc with h | h
    · subst h
      simp [List.length_take]
    · exact ih c h

/-- Every chunk except possibly the last has exactly `b` elements. -/
theorem chunkList_dropLast_length (b : Nat) (hb : 1 ≤ b) (l : List α) :
    ∀ c ∈ (chunkList b l).dropLast, c.length = b := by
  induction l using chunkList.induct b with
  | case1 => simp [chunkList_nil]
  | case2 x xs ih =>
    rw [chunkList_cons]
    by_cases hrest : chunkList b (xs.drop (b - 1)) = []
    · rw [hrest]
      simp
    · rw [List.dropLast_cons_of_ne_nil hrest]
      intro c hc
      rcases List.mem_cons.mp hc with h | h
      · subst h
        have hxs : xs.drop (b - 1) ≠ [] := by
          intro hnil
          exact hrest (by rw [hnil, chunkList_nil])
        have hlen : b - 1 < xs.length := by
          by_contra hle
          exact hxs (List.drop_eq_nil_iff.mpr (by omega))
        simp [List.length_take]
        omega
      · exact ih c h

/-- With positive batch size and enough fuel, the `createBatches` loop
terminates and produces exactly the left-to-right chunking of the tail
`items.drop i`. -/
theorem createBatchesFuel_eq (b : Nat) (hb : 1 ≤ b) :
    ∀ (fuel : Nat) (items : List String) (i : Nat), items.length - i < fuel →
      createBatchesFuel fuel items b i = some (chunkList b (items.drop i)) := by
  intro fuel
  induction fuel with
  | zero => intro items i h; omega
  | succ fuel ih =>
    intro items i h
    by_cases hi : i < items.length
    · rw [createBatchesFuel, if_pos hi, ih items (i + b) (by omega)]
      have hne : items.drop i ≠ [] := by
        intro hnil
        have := List.drop_eq_nil_iff.mp hnil
        omega
      rw [chunkList_eq_of_pos b hb (items.drop i) hne]
      have hdd : items.drop (i + b) = (items.drop i).drop b := by
        rw [List.drop_drop]
      rw [hdd]
      rfl
    · rw [createBatchesFuel, if_neg hi]
      have : items.drop i = [] := List.drop_eq_nil_iff.mpr (by omega)
      rw [this, chunkList_nil]

/-- For positive batch size, `createBatches` terminates and equals the
chunking. -/
theorem createBatches_eq (items : List String) (b : Nat) (hb : 1 ≤ b) :
    createBatches items b = some (chunkList b items) := by
  have := createBatchesFuel_eq b hb (items.length + 1) items 0 (by omega)
  simpa [createBatches] using this

/-- C3: for every `total` and every `batchSize ≥ 1`, `prepareBatches`
terminates and its batch list partitions the generated device identifiers:
flattening the batches in order gives back exactly
`generateSerialNumbers total` (so each identifier for indices `0..total-1`
appears exactly once, in ascending index order), the batch lengths sum to
`total`, every batch has length `≤ batchSize`, and every batch except
possibly the last has length exactly `batchSize`. -/
theorem c3_batch_plan_partition (total b : Nat) (hb : 1 ≤ b) :
    ∃ info : BatchInfo, prepareBatches total b = some info ∧
      info.batches.flatten = generateSerialNumbers total ∧
      (info.batches.map List.length).sum = total ∧
      (∀ c ∈ info.batches, c.length ≤ b) ∧
      (∀ c ∈ info.batches.dropLast, c.length = b) := by
  have hc := createBatches_eq (generateSerialNumbers total) b hb
  refine ⟨{ serialNumbers := generateSerialNumbers total
            batches := chunkList b (generateSerialNumbers total)
            totalDevices := total
            batchSize := b
            totalBatches := (chunkList b (generateSerialNumbers total)).length },
          ?_, ?_, ?_, ?_, ?_⟩
  · simp [prepareBatches, hc]
  · exact chunkList_flatten b hb _
  · calc (((chunkList b (generateSerialNumbers total)).map List.length)).sum
        = (chunkList b (generateSerialNumbers total)).flatten.length :=
          (List.length_flatten _).symm
      _ = (generateSerialNumbers total).length := by rw [chunkList_flatten b hb]
      _ = total := by simp [generateSerialNumbers]
  · exact chunkList_length_le b _
  · exact chunkList_dropLast_length b hb _

/-- Witness for C3 at `total = 5`, `batchSize = 2`. -/
theorem c3_witness :
    1 ≤ 2 ∧ ∃ info : BatchInfo, prepareBatches 5 2 = some info ∧
      info.batches.flatten = generateSerialNumbers 5 ∧
      (info.batches.map List.length).sum = 5 ∧
      (∀ c ∈ info.batches, c.length ≤ 2) ∧
      (∀ c ∈ info.batches.dropLast, c.length = 2) :=
  ⟨by decide, c3_batch_plan_partition 5 2 (by decide)⟩

/-- The `createBatches` loop never terminates when `batchSize = 0` and the
current index is inside the list: `i + 0 = i`, so the guard holds after every
iteration and every fuel bound is exhausted. -/
theorem createBatchesFuel_zero_batchSize (items : List String) (i : Nat)
    (hi : i < items.length) : ∀ fuel, createBatchesFuel fuel items 0 i = none := by
  intro fuel
  induction fuel with
  | zero => rfl
  | succ fuel ih =>
    rw [createBatchesFuel, if_pos hi]
    simp [ih]

/-- C4: with a non-positive batch size (here `batchSize = 0`) the planning
code does not fail fast with an InvalidConfiguration error — no such check
exists — instead the `createBatches` loop never terminates: for a 10-device
plan no amount of fuel completes the loop, so `prepareBatches 10 0` produces
no result. -/
theorem c4_zero_batch_size_loops_forever :
    (∀ fuel, createBatchesFuel fuel (generateSerialNumbers 10) 0 0 = none) ∧
      prepareBatches 10 0 = none := by
  constructor
  · exact createBatchesFuel_zero_batchSize _ 0 (by decide)
  · rfl

/-- Length of a JS `padStart`: the target length, or the original length if
already at least the target (no truncation ever occurs). -/
theorem padStart_length (s : String) (n : Nat) (c : Char) :
    (padStart s n c).length = max n s.length := by
  rw [padStart, String.length_append, String.mk_length, List.length_replicate]
  omega

/-- Indexing the generated identifier list inside its range yields the
identifier for that index. -/
theorem generateSerialNumbers_getD (total i : Nat) (h : i < total) :
    (generateSerialNumbers total).getD i "" = serialNumber i := by
  simp [generateSerialNumbers, List.getD, List.getElem?_map, List.getElem?_range, h]

/-- C5 counterexample: in a 1001-device fleet the pad width is still 3, so the
identifier for index 999 has 3 digits while the identifier for index 1000 has
4 — identifiers do not keep a fixed width derived from `total`. -/
theorem c5_counterexample :
    (generateSerialNumbers 1001).getD 999 "" = "SN-999" ∧
    (generateSerialNumbers 1001).getD 1000 "" = "SN-1000" ∧
    ((generateSerialNumbers 1001).getD 999 "").length ≠
      ((generateSerialNumbers 1001).getD 1000 "").length := by
  rw [generateSerialNumbers_getD 1001 999 (by decide),
    generateSerialNumbers_getD 1001 1000 (by decide)]
  exact ⟨by decide, by decide, by decide⟩

/-- C5 (amended): the zero-pad width is the hard-coded constant 3 regardless
of `total`: every generated identifier is `"SN-"` followed by the index's
decimal digits padded to width 3, so its length is `3 + max 3 digits` — an
index is never truncated (its full digits are kept), but indices with more
than three digits exceed the fixed width, so the width is not derived from
`total`. -/
theorem c5_amended_pad_width_hardcoded (total i : Nat) (h : i < total) :
    (generateSerialNumbers total).getD i "" = "SN-" ++ padStart (toString i) 3 '0' ∧
    ((generateSerialNumbers total).getD i "").length = 3 + max 3 (toString i).length := by
  rw [generateSerialNumbers_getD total i h]
  refine ⟨rfl, ?_⟩
  rw [serialNumber, String.length_append, padStart_length]
  rfl

/-- Witness for C5's amended statement at `total = 4`, `i = 2`. -/
theorem c5_amended_witness :
    2 < 4 ∧
    ((generateSerialNumbers 4).getD 2 "" = "SN-" ++ padStart (toString 2) 3 '0' ∧
      ((generateSerialNumbers 4).getD 2 "").length = 3 + max 3 (toString 2).length) :=
  ⟨by decide, c5_amended_pad_width_hardcoded 4 2 (by decide)⟩

/-- Timing model of the rate limiter's `processQueue` worker loop.  Arguments:
the instant `now` at which the loop examines the head item, the stored
`lastRequestTime`, and the wall-clock durations of the queued tasks in order.
Each iteration computes `waitTime = max(0, intervalMs - (now - lastRequestTime))`
(`Nat` subtraction is exactly the source's `Math.max(0, ...)` here), sleeps
`waitTime`, records `lastRequestTime = Date.now()` at the instant execution
begins, awaits the task (advancing the clock by its duration), and moves to
the next item.  The result is the list of recorded start times. -/
def rateLimiterStarts (intervalMs : Nat) : Nat → Nat → List Nat → List Nat
  | _, _, [] => []
  | now, lastRequestTime, d :: ds =>
    let waitTime := intervalMs - (now - lastRequestTime)
    let start := now + waitTime
    start :: rateLimiterStarts intervalMs (start + d) start ds

/-- C1: for every queue of tasks (any durations), any current instant at or
after the stored `lastRequestTime`, the recorded start times of consecutive
executions are at least `intervalMs` apart — and the first start is also at
least `intervalMs` after the stored `lastRequestTime`, so the guarantee holds
across the limiter instance's lifetime (later drain sessions resume from the
previous session's last recorded start). -/
theorem c1_pacing_gap (intervalMs now lastRequestTime : Nat) (ds : List Nat)
    (h : lastRequestTime ≤ now) :
    List.Chain' (fun a b => a + intervalMs ≤ b)
      (lastRequestTime :: rateLimiterStarts intervalMs now lastRequestTime ds) := by
  induction ds generalizing now lastRequestTime with
  | nil => simp [rateLimiterStarts]
  | cons d ds ih =>
    rw [rateLimiterStarts]
    refine List.chain'_cons.mpr ⟨?_, ?_⟩
    · omega
    · exact ih _ _ (Nat.le_add_right _ _)

/-- Witness for C1: interval 1100ms, three tasks of durations 10ms, 2000ms,
0ms, first examined at instant 5000 with `lastRequestTime = 0`. -/
theorem c1_witness :
    (0 : Nat) ≤ 5000 ∧
    List.Chain' (fun a b => a + 1100 ≤ b)
      (0 :: rateLimiterStarts 1100 5000 0 [10, 2000, 0]) :=
  ⟨by decide, c1_pacing_gap 1100 5000 0 [10, 2000, 0] (by decide)⟩

/-- One device's record in a successful response body (`data` array
element). -/
structure DeviceRecord where
  sn : String
  power : String
  status : String
  lastUpdated : String
deriving DecidableEq, Repr

/-- A parsed JSON response body as seen by the aggregator:
`data` is `some records` when the body carries an array field `data`
(the `response.data && Array.isArray(response.data)` check in the
aggregator), and `none` when the field is absent or not an array. -/
structure ApiResponse where
  data : Option (List DeviceRecord)
deriving DecidableEq, Repr

/-- Classification of one HTTP attempt made by `fetchDeviceData`, abstracting
the wire: a parsed OK body, status 429, status 401 (with the parsed error
message), another non-success status, a transport failure that surfaces as a
`TypeError` mentioning `fetch` (the retried kind), or any other thrown
error. -/
inductive AttemptOutcome
| ok (response : ApiResponse)
| status429
| status401 (msg : String)
| statusOther (code : Nat) (msg : String)
| fetchTypeError
| otherThrown (msg : String)
deriving DecidableEq, Repr

/-- Result of one logical `fetchDeviceData` call after retries. -/
inductive FetchResult
| success (response : ApiResponse)
| rateLimitExceeded (maxRetries : Nat)
| authFailed (msg : String)
| apiError (code : Nat) (msg : String)
| transportFailed
deriving DecidableEq, Repr

/-- Everything observable about one logical `fetchDeviceData` call: how many
HTTP attempts it made, the backoff delays it slept (in order, in
milliseconds), and its final outcome. -/
structure FetchTrace where
  attempts : Nat
  delays : List Nat
  result : FetchResult
deriving DecidableEq, Repr

/-- `fetchDeviceData(snList, retryCount)` from the API client module, over an
abstract attempt-outcome sequence `resp` (attempt with retry counter `k`
observes `resp k`).  Mirrors the source's classification order: 429 retries
with delay `initialDelay * 2^retryCount` while `retryCount < maxRetries`,
else fails with the rate-limit error; 401 fails immediately; any other
non-success status fails immediately; a `TypeError` mentioning `fetch`
retries with the same backoff; any other thrown error propagates. -/
def fetchDeviceData (resp : Nat → AttemptOutcome) (maxRetries initialDelay : Nat) :
    Nat → FetchTrace
  | retryCount =>
    match resp retryCount with
    | .ok r => ⟨1, [], .success r⟩
    | .status429 =>
      if _h : retryCount < maxRetries then
        let rest := fetchDeviceData resp maxRetries initialDelay (retryCount + 1)
        ⟨rest.attempts + 1, initialDelay * 2 ^ retryCount :: rest.delays, rest.result⟩
      else ⟨1, [], .rateLimitExceeded maxRetries⟩
    | .status401 msg => ⟨1, [], .authFailed msg⟩
    | .statusOther code msg => ⟨1, [], .apiError code msg⟩
    | .fetchTypeError =>
      if _h : retryCount < maxRetries then
        let rest := fetchDeviceData resp maxRetries initialDelay (retryCount + 1)
        ⟨rest.attempts + 1, initialDelay * 2 ^ retryCount :: rest.delays, rest.result⟩
      else ⟨1, [], .transportFailed⟩
    | .otherThrown _ => ⟨1, [], .transportFailed⟩
termination_by retryCount => maxRetries - retryCount
decreasing_by all_goals omega

/-- C2: against an endpoint that returns 429 on every attempt, with
`MAX_RETRIES = 3` and `INITIAL_RETRY_DELAY_MS = 1500`, `fetchDeviceData`
makes exactly 4 attempts (1 initial + 3 retries), sleeping 1500ms, 3000ms and
6000ms before attempts 2, 3 and 4, and ends with the rate-limit-exceeded
failure. -/
theorem c2_persistent_429_backoff :
    fetchDeviceData (fun _ => .status429) 3 1500 0 =
      ⟨4, [1500, 3000, 6000], .rateLimitExceeded 3⟩ := by
  simp [fetchDeviceData]

/-- C6: whenever an attempt observes status 401, `fetchDeviceData` makes
exactly that one attempt, sleeps no backoff delay, and fails with the
authentication error — irrespective of `retryCount` and `maxRetries`. -/
theorem c6_auth_failure_no_retry (resp : Nat → AttemptOutcome)
    (maxRetries initialDelay retryCount : Nat) (msg : String)
    (h : resp retryCount = .status401 msg) :
    fetchDeviceData resp maxRetries initialDelay retryCount =
      ⟨1, [], .authFailed msg⟩ := by
  rw [fetchDeviceData, h]

/-- Witness for C6: a persistently-401 endpoint, `maxRetries = 3`,
`retryCount = 0`. -/
theorem c6_witness :
    ((fun _ => AttemptOutcome.status401 "bad signature") 0 =
      AttemptOutcome.status401 "bad signature") ∧
    fetchDeviceData (fun _ => .status401 "bad signature") 3 1500 0 =
      ⟨1, [], .authFailed "bad signature"⟩ :=
  ⟨rfl, c6_auth_failure_no_retry (fun _ => .status401 "bad signature") 3 1500 0
    "bad signature" rfl⟩

/-- One entry of the final report's `errors` list, as pushed by the
aggregator's catch block: `{ batch: batchNumber, serialNumbers: batch,
error: error.message }`. -/
structure BatchError where
  batch : Nat
  serialNumbers : List String
  error : String
deriving DecidableEq, Repr

/-- The object passed to the `onProgress` callback after a record-bearing
batch (the JS object also carries `progress`, a percentage string computed
with floating-point division; that field is outside the model). -/
structure ProgressEvent where
  batchIndex : Nat
  totalBatches : Nat
  batchResults : List DeviceRecord
  successCount : Nat
  onlineCount : Nat
  offlineCount : Nat
deriving DecidableEq, Repr

/-- The `summary` object of the final report (the wall-clock fields
`durationSeconds`, `averageRequestTime` and `timestamp` are outside the
model). Counter fields are `Int`, as JS subtraction is not truncated. -/
structure Summary where
  totalDevices : Int
  successfulFetches : Int
  failedFetches : Int
  onlineDevices : Nat
  offlineDevices : Nat
  totalBatches : Nat
  errorsCount : Nat
deriving DecidableEq, Repr

/-- The report returned by `aggregateDeviceData`, extended with the sequence
of progress events in the order the callback was invoked.  (In the source
`errors` is `undefined` rather than `[]` when empty; the model keeps the
list.) -/
structure Report where
  summary : Summary
  devices : List DeviceRecord
  errors : List BatchError
  events : List ProgressEvent
deriving DecidableEq, Repr

/-- The aggregator loop's accumulators (`allResults`, `errors`,
`successCount`, `onlineCount`, `offlineCount`), plus the emitted progress
events. -/
structure AggState where
  allResults : List DeviceRecord
  errors : List BatchError
  successCount : Nat
  onlineCount : Nat
  offlineCount : Nat
  events : List ProgressEvent
deriving DecidableEq, Repr

/-- One iteration of the aggregator's `for` loop over batch `i` (0-based),
given the settled outcome of `rateLimiter.execute(() => fetchDeviceData(batch))`:
on a rejection, push a `BatchError` with the 1-based batch number; on a
fulfilled response, only a present `data` array contributes — its records are
appended, the counters updated (`status === 'Online'` vs anything else), and
the progress callback invoked; a fulfilled response without a `data` array
changes nothing. -/
def processBatch (totalBatches : Nat) (s : AggState) (i : Nat)
    (batch : List String) (outcome : Except String ApiResponse) : AggState :=
  match outcome with
  | .error msg =>
    { s with errors := s.errors ++ [⟨i + 1, batch, msg⟩] }
  | .ok resp =>
    match resp.data with
    | none => s
    | some ds =>
      { allResults := s.allResults ++ ds
        errors := s.errors
        successCount := s.successCount + ds.length
        onlineCount := s.onlineCount + ds.countP (fun d => d.status == "Online")
        offlineCount := s.offlineCount + ds.countP (fun d => !(d.status == "Online"))
        events := s.events ++
          [⟨i, totalBatches, ds,
            s.successCount + ds.length,
            s.onlineCount + ds.countP (fun d => d.status == "Online"),
            s.offlineCount + ds.countP (fun d => !(d.status == "Online"))⟩] }

/-- The aggregator's `for (let i = 0; i < batches.length; i++)` loop;
`outcomes i` is the settled outcome of batch `i`'s rate-limited fetch. -/
def aggregateLoop (totalBatches : Nat) (outcomes : Nat → Except String ApiResponse) :
    List (List String) → Nat → AggState → AggState
  | [], _, s => s
  | batch :: rest, i, s =>
    aggregateLoop totalBatches outcomes rest (i + 1)
      (processBatch totalBatches s i batch (outcomes i))

/-- `aggregateDeviceData` from `src/services/aggregator.js`, parameterised by
the batch plan and the per-batch fetch outcomes (the configuration and the
network are the environment): run the loop from empty accumulators and
assemble the report, with `failedFetches = totalDevices - successCount`. -/
def aggregateDeviceData (batches : List (List String)) (totalDevices : Nat)
    (outcomes : Nat → Except String ApiResponse) : Report :=
  let final := aggregateLoop batches.length outcomes batches 0 ⟨[], [], 0, 0, 0, []⟩
  { summary :=
      { totalDevices := (totalDevices : Int)
        successfulFetches := (final.successCount : Int)
        failedFetches := (totalDevices : Int) - (final.successCount : Int)
        onlineDevices := final.onlineCount
        offlineDevices := final.offlineCount
        totalBatches := batches.length
        errorsCount := final.errors.length }
    devices := final.allResults
    errors := final.errors
    events := final.events }

/-- Through the whole loop, `successCount` stays equal to the number of
accumulated device records (both only change on a record-bearing success,
and by the same amount). -/
theorem aggregateLoop_successCount (tb : Nat)
    (outcomes : Nat → Except String ApiResponse) :
    ∀ (bs : List (List String)) (i : Nat) (s : AggState),
      s.successCount = s.allResults.length →
      (aggregateLoop tb outcomes bs i s).successCount =
        (aggregateLoop tb outcomes bs i s).allResults.length := by
  intro bs
  induction bs with
  | nil => intro i s h; exact h
  | cons b rest ih =>
    intro i s h
    show (aggregateLoop tb outcomes rest (i + 1)
        (processBatch tb s i b (outcomes i))).successCount = _
    apply ih
    cases ho : outcomes i with
    | error msg => simpa [processBatch, ho] using h
    | ok resp =>
      cases hd : resp.data with
      | none => simpa [processBatch, ho, hd] using h
      | some ds => simp [processBatch, ho, hd, h]

/-- C8: in every run's report, `successfulFetches + failedFetches =
totalDevices`; `successfulFetches` equals the cumulative number of device
records obtained from successful batches (the length of the report's device
list), and `failedFetches` is `totalDevices` minus that count — so a failed
batch counts all of its devices as failed. -/
theorem c8_summary_counts (batches : List (List String)) (totalDevices : Nat)
    (outcomes : Nat → Except String ApiResponse) :
    (aggregateDeviceData batches totalDevices outcomes).summary.successfulFetches +
        (aggregateDeviceData batches totalDevices outcomes).summary.failedFetches =
      (aggregateDeviceData batches totalDevices outcomes).summary.totalDevices ∧
    (aggregateDeviceData batches totalDevices outcomes).summary.successfulFetches =
      ((aggregateDeviceData batches totalDevices outcomes).devices.length : Int) ∧
    (aggregateDeviceData batches totalDevices outcomes).summary.failedFetches =
      (totalDevices : Int) -
        ((aggregateDeviceData batches totalDevices outcomes).devices.length : Int) := by
  have hinv := aggregateLoop_successCount batches.length outcomes batches 0
    ⟨[], [], 0, 0, 0, []⟩ rfl
  refine ⟨?_, ?_, ?_⟩
  · simp [aggregateDeviceData]
  · simp [aggregateDeviceData, hinv]
  · simp [aggregateDeviceData, hinv]

/-- The error entry contributed by batch `j` (0-based) of a plan suffix, if
its fetch rejected. -/
def errorEntryAt (bs : List (List String)) (outcomes : Nat → Except String ApiResponse)
    (i j : Nat) : Option BatchError :=
  match outcomes (i + j) with
  | .error msg => some ⟨i + j + 1, bs.getD j [], msg⟩
  | .ok _ => none

/-- The loop's `errors` accumulator collects exactly the rejected batches, in
plan order, each with its 1-based number, its device identifiers, and the
rejection message. -/
theorem aggregateLoop_errors (tb : Nat)
    (outcomes : Nat → Except String ApiResponse) :
    ∀ (bs : List (List String)) (i : Nat) (s : AggState),
      (aggregateLoop tb outcomes bs i s).errors =
        s.errors ++ (List.range bs.length).filterMap (errorEntryAt bs outcomes i) := by
  intro bs
  induction bs with
  | nil => intro i s; simp [aggregateLoop]
  | cons b rest ih =>
    intro i s
    show (aggregateLoop tb outcomes rest (i + 1)
        (processBatch tb s i b (outcomes i))).errors = _
    rw [ih (i + 1)]
    have hshift : ∀ j : Nat, errorEntryAt rest outcomes (i + 1) j =
        errorEntryAt (b :: rest) outcomes i (j + 1) := by
      intro j
      have harith : i + (j + 1) = i + 1 + j := by omega
      rw [errorEntryAt, errorEntryAt, harith, List.getD_cons_succ]
    rw [List.length_cons, List.range_succ_eq_map, List.filterMap_cons,
      List.filterMap_map]
    have hcomp : (errorEntryAt (b :: rest) outcomes i) ∘ Nat.succ =
        errorEntryAt rest outcomes (i + 1) := by
      funext j
      rw [Function.comp_apply, hshift j]
    rw [hcomp]
    cases ho : outcomes i with
    | error msg =>
      rw [show errorEntryAt (b :: rest) outcomes i 0 =
          some ⟨i + 1, b, msg⟩ from by simp [errorEntryAt, ho]]
      simp [processBatch, ho]
    | ok resp =>
      rw [show errorEntryAt (b :: rest) outcomes i 0 = none from by
        simp [errorEntryAt, ho]]
      cases hd : resp.data with
      | none => simp [processBatch, ho, hd]
      | some ds => simp [processBatch, ho, hd]

/-- C7 counterexample: a single-batch run whose fetch resolves successfully
but whose response body has no `data` array.  The batch contributes no device
records, yet the report's errors list is empty — a batch that contributed
nothing was omitted from `errors`. -/
theorem c7_counterexample :
    (aggregateDeviceData [["SN-000"]] 1 (fun _ => .ok ⟨none⟩)).devices = [] ∧
    (aggregateDeviceData [["SN-000"]] 1 (fun _ => .ok ⟨none⟩)).errors = [] :=
  ⟨rfl, rfl⟩

/-- C7 (amended): the report's errors list consists of exactly the batches
whose fetch rejected, in plan order, each recorded with its 1-based batch
number, its device identifiers, and the rejection's error message — no
rejected batch is omitted.  (A batch whose fetch resolves without a `data`
array contributes no records but is not recorded as an error.) -/
theorem c7_amended_rejected_batches_recorded (batches : List (List String))
    (totalDevices : Nat) (outcomes : Nat → Except String ApiResponse) :
    (aggregateDeviceData batches totalDevices outcomes).errors =
      (List.range batches.length).filterMap (errorEntryAt batches outcomes 0) := by
  have h := aggregateLoop_errors batches.length outcomes batches 0 ⟨[], [], 0, 0, 0, []⟩
  simpa [aggregateDeviceData] using h

/-- Observable state of a `RateLimiter` instance's queue: the pending items
(each standing for the `{ fn, resolve, reject }` entry pushed by `execute`)
and the items whose result handle has been settled (resolved or rejected), in
settlement order. -/
structure LimiterState (α : Type) where
  queue : List α
  settled : List α
deriving DecidableEq, Repr

/-- Operations on a `RateLimiter` instance: `execute x` pushes an item onto
the queue; `step` is one iteration of the `processQueue` worker loop (shift
the head, run it, settle its handle); `clear` empties the queue. -/
inductive LimiterOp (α : Type)
| execute (x : α)
| step
| clear
deriving DecidableEq, Repr

/-- Effect of one operation on the limiter state.  `execute` appends
(`this.queue.push(...)`); `step` removes the head (`this.queue.shift()`) and
settles it (resolve on success, reject on failure — either way the handle is
settled); `clear` sets `this.queue = []` and settles nothing. -/
def limiterStep (s : LimiterState α) : LimiterOp α → LimiterState α
  | .execute x => { s with queue := s.queue ++ [x] }
  | .step =>
    match s.queue with
    | [] => s
    | x :: rest => { queue := rest, settled := s.settled ++ [x] }
  | .clear => { s with queue := [] }

/-- Run a sequence of operations left to right. -/
def limiterRun (s : LimiterState α) : List (LimiterOp α) → LimiterState α
  | [] => s
  | op :: ops => limiterRun (limiterStep s op) ops

/-- The items submitted by a sequence of operations, in submission order. -/
def submissionsOf : List (LimiterOp α) → List α
  | [] => []
  | .execute x :: ops => x :: submissionsOf ops
  | .step :: ops => submissionsOf ops
  | .clear :: ops => submissionsOf ops

/-- Without `clear`, the settled items followed by the still-queued items are
exactly the prior state's contents followed by the new submissions in
order — i.e. settlement (execution) order is submission order, FIFO. -/
theorem limiterRun_fifo (ops : List (LimiterOp α)) :
    ∀ s : LimiterState α, LimiterOp.clear ∉ ops →
      (limiterRun s ops).settled ++ (limiterRun s ops).queue =
        s.settled ++ s.queue ++ submissionsOf ops := by
  induction ops with
  | nil => intro s _; simp [limiterRun, submissionsOf]
  | cons op ops ih =>
    intro s h
    have hop : op ≠ .clear := fun he => h (he ▸ List.mem_cons_self op ops)
    have hops : LimiterOp.clear ∉ ops := fun hm => h (List.mem_cons_of_mem op hm)
    cases op with
    | execute x =>
      rw [limiterRun, ih _ hops]
      simp [limiterStep, submissionsOf]
    | step =>
      rw [limiterRun, ih _ hops]
      cases hq : s.queue with
      | nil => simp [limiterStep, hq, submissionsOf]
      | cons a rest => simp [limiterStep, hq, submissionsOf]
    | clear => exact absurd rfl hop

/-- Whether batch outcome `o` carries a `data` array (the aggregator's
`response.data && Array.isArray(response.data)` test on a fulfilled
fetch). -/
def hasData : Except String ApiResponse → Bool
  | .ok r => r.data.isSome
  | .error _ => false

/-- The progress events emitted by the loop carry the 0-based indices of
exactly the record-bearing batches, in increasing (plan) order. -/
theorem aggregateLoop_events_idx (tb : Nat)
    (outcomes : Nat → Except String ApiResponse) :
    ∀ (bs : List (List String)) (i : Nat) (s : AggState),
      (aggregateLoop tb outcomes bs i s).events.map ProgressEvent.batchIndex =
        s.events.map ProgressEvent.batchIndex ++
          (((List.range bs.length).map (i + ·)).filter fun k => hasData (outcomes k)) := by
  intro bs
  induction bs with
  | nil => intro i s; simp [aggregateLoop]
  | cons b rest ih =>
    intro i s
    show (aggregateLoop tb outcomes rest (i + 1)
        (processBatch tb s i b (outcomes i))).events.map _ = _
    rw [ih (i + 1)]
    have hrange : (List.range (b :: rest).length).map (i + ·) =
        i :: (List.range rest.length).map (i + 1 + ·) := by
      rw [List.length_cons, List.range_succ_eq_map, List.map_cons, List.map_map]
      refine congrArg₂ _ (by omega) ?_
      refine List.map_congr_left fun j _ => ?_
      simp [Function.comp]
      omega
    rw [hrange]
    cases ho : outcomes i with
    | error msg =>
      rw [List.filter_cons_of_neg (by simp [hasData, ho])]
      simp [processBatch, ho]
    | ok resp =>
      cases hd : resp.data with
      | none =>
        rw [List.filter_cons_of_neg (by simp [hasData, ho, hd])]
        simp [processBatch, ho, hd]
      | some ds =>
        rw [List.filter_cons_of_pos (by simp [hasData, ho, hd])]
        simp [processBatch, ho, hd]

/-- C9: (i) the rate limiter is FIFO — for any operation sequence without
`clear`, starting from an idle limiter, the settled items followed by the
still-pending items are exactly the submissions in submission order, so tasks
execute (and their handles settle) in exactly submission order with no
reordering; (ii) the aggregator's progress events are delivered in
batch-completion order, which equals plan (submission) order: the emitted
events' batch indices are the record-bearing batches' indices in increasing
order. -/
theorem c9_fifo_and_progress_order :
    (∀ (α : Type) (ops : List (LimiterOp α)), LimiterOp.clear ∉ ops →
      (limiterRun ⟨[], []⟩ ops).settled ++ (limiterRun ⟨[], []⟩ ops).queue =
        submissionsOf ops) ∧
    (∀ (batches : List (List String)) (totalDevices : Nat)
        (outcomes : Nat → Except String ApiResponse),
      (aggregateDeviceData batches totalDevices outcomes).events.map
          ProgressEvent.batchIndex =
        (List.range batches.length).filter fun k => hasData (outcomes k)) := by
  constructor
  · intro α ops h
    simpa using limiterRun_fifo ops ⟨[], []⟩ h
  · intro batches totalDevices outcomes
    have h := aggregateLoop_events_idx batches.length outcomes batches 0
      ⟨[], [], 0, 0, 0, []⟩
    have hmap : (List.range batches.length).map (0 + ·) =
        List.range batches.length := by
      simp
    rw [hmap] at h
    simpa [aggregateDeviceData] using h

/-- Witness for C9's FIFO part: two submissions and one worker step on an
idle limiter. -/
theorem c9_witness :
    (LimiterOp.clear ∉ ([.execute 1, .execute 2, .step] : List (LimiterOp Nat))) ∧
    ((limiterRun ⟨[], []⟩
          ([.execute 1, .execute 2, .step] : List (LimiterOp Nat))).settled ++
        (limiterRun ⟨[], []⟩
          ([.execute 1, .execute 2, .step] : List (LimiterOp Nat))).queue =
      submissionsOf ([.execute 1, .execute 2, .step] : List (LimiterOp Nat))) :=
  ⟨by decide,
    c9_fifo_and_progress_order.1 Nat [.execute 1, .execute 2, .step] (by decide)⟩

/-- An item that is out of the queue with an unsettled handle stays unsettled
(and out of the queue) under any operations that never resubmit it. -/
theorem limiterRun_never_settles (x : α) :
    ∀ (ops : List (LimiterOp α)) (s : LimiterState α),
      x ∉ s.queue → x ∉ s.settled → LimiterOp.execute x ∉ ops →
      x ∉ (limiterRun s ops).settled ∧ x ∉ (limiterRun s ops).queue := by
  intro ops
  induction ops with
  | nil => intro s hq hs _; exact ⟨hs, hq⟩
  | cons op ops ih =>
    intro s hq hs hops
    have hop : op ≠ .execute x := fun he => hops (he ▸ List.mem_cons_self op ops)
    have hops' : LimiterOp.execute x ∉ ops :=
      fun hm => hops (List.mem_cons_of_mem op hm)
    rw [limiterRun]
    cases op with
    | execute y =>
      have hxy : x ≠ y := fun he => hop (by rw [he])
      apply ih
      · intro hm
        rcases List.mem_append.mp hm with h1 | h1
        · exact hq h1
        · exact hxy (by simpa using h1)
      · exact hs
      · exact hops'
    | step =>
      cases hqe : s.queue with
      | nil =>
        have hst : limiterStep s .step = s := by simp [limiterStep, hqe]
        rw [hst]
        exact ih s hq hs hops'
      | cons a rest =>
        have hst : limiterStep s .step = ⟨rest, s.settled ++ [a]⟩ := by
          simp [limiterStep, hqe]
        rw [hst]
        apply ih
        · intro hm
          exact hq (hqe ▸ List.mem_cons_of_mem a hm)
        · intro hm
          rcases List.mem_append.mp hm with h1 | h1
          · exact hs h1
          · have hxa : x = a := by simpa using h1
            exact hq (hqe ▸ hxa ▸ List.mem_cons_self a rest)
        · exact hops'
    | clear =>
      apply ih
      · simp [limiterStep]
      · exact hs
      · exact hops'

/-- C10: an item still pending in the queue at the instant `clear()` runs is
silently abandoned: no later sequence of submissions and worker steps (that
does not resubmit the same item) ever settles its result handle — it is never
resolved and never rejected. -/
theorem c10_clear_abandons_pending {α : Type} (s : LimiterState α) (x : α)
    (_hq : x ∈ s.queue) (hs : x ∉ s.settled) (ops : List (LimiterOp α))
    (hops : LimiterOp.execute x ∉ ops) :
    x ∉ (limiterRun (limiterStep s .clear) ops).settled := by
  have hq' : x ∉ (limiterStep s .clear).queue := by simp [limiterStep]
  have hs' : x ∉ (limiterStep s .clear).settled := by simpa [limiterStep] using hs
  exact (limiterRun_never_settles x ops (limiterStep s .clear) hq' hs' hops).1

/-- Witness for C10: item 2 is pending behind item 1 when the queue is
cleared; a later submission and two worker steps never settle item 2. -/
theorem c10_witness :
    (2 ∈ (⟨[1, 2], []⟩ : LimiterState Nat).queue) ∧
    (2 ∉ (⟨[1, 2], []⟩ : LimiterState Nat).settled) ∧
    (LimiterOp.execute 2 ∉ ([.execute 3, .step, .step] : List (LimiterOp Nat))) ∧
    2 ∉ (limiterRun (limiterStep (⟨[1, 2], []⟩ : LimiterState Nat) .clear)
        [.execute 3, .step, .step]).settled :=
  ⟨by decide, by decide, by decide,
    c10_clear_abandons_pending ⟨[1, 2], []⟩ 2 (by decide) (by decide)
      [.execute 3, .step, .step] (by decide)⟩
